import Mathlib

/-!
Verification of the GPU-AV descriptor-validation core
(`layers/gpu/descriptor_validation/gpuav_descriptor_set.cpp`).

The development shallowly embeds the data model and the operations of the
source file: the identifier heap (`DescriptorHeap::NextId` / `DeleteId`),
the binding-set layout buffer (`DescriptorSet::GetLayoutState`), the
descriptor-record extraction functions (`GetInData` overloads and
`FillBindingInData`), the versioned snapshot cache
(`DescriptorSet::GetCurrentState` and the `Perform*Update` hooks), and the
usage-output decoder (`DescriptorSet::State::UsedDescriptors`).

Machine integers are embedded as `Nat`; the 32-bit wrap-around of the
bitmap words is explicit (`% 2^32` masks in the bit operations).
Device-memory plumbing (allocation, map/flush/invalidate) is not modelled:
buffers appear as their mapped contents.
-/

namespace GpuAV

/-- Modelled from the spec: the reserved skip-sentinel identifier constant
(`glsl::kDebugInputBindlessSkipId`, declared in `gpu_shaders_constants.h`,
which is outside the excerpt). The spec only reserves it as a distinguished
sentinel; its concrete numeric value is irrelevant to every claim. -/
def kDebugInputBindlessSkipId : Nat := 0x00ffffff

/-- Constant `vvl::kU32Max`, the all-ones 32-bit value used as the
"max-unsigned" extent sentinel. -/
def kU32Max : Nat := 2 ^ 32 - 1

/-! ## Identifier heap (`DescriptorHeap`)

State of `gpuav::DescriptorHeap`: fixed capacity `max_descriptors_`, scan
cursor `next_id_`, live map `alloc_map_` (an unordered map from id to the
owning `VulkanTypedHandle`, embedded as its key set plus an owner lookup),
and the mapped device-visible bitmap `gpu_heap_state_` (an array of 32-bit
words, embedded as a total function from word index to word value). -/

structure DescriptorHeap where
  maxDescriptors : Nat
  nextId : Nat
  allocMap : Finset Nat
  owners : Nat → Option Nat
  gpuHeapState : Nat → Nat

/-- Embedding of `gpu_heap_state_[result / 32] |= 1u << (result & 31)`. -/
def setBitWord (w : Nat → Nat) (id : Nat) : Nat → Nat :=
  fun j => if j = id / 32 then w j ||| (1 <<< (id &&& 31)) else w j

/-- Embedding of `gpu_heap_state_[id / 32] &= ~(1u << (id & 31))`; the
32-bit complement `~` is `(2^32 - 1) ^^^ ·`. -/
def clearBitWord (w : Nat → Nat) (id : Nat) : Nat → Nat :=
  fun j => if j = id / 32 then w j &&& ((2 ^ 32 - 1) ^^^ (1 <<< (id &&& 31))) else w j

/-- Cursor update in `NextId`: `next_id_++` followed by
`if (next_id_ > max_descriptors_) next_id_ = 1;`. -/
def wrapNext (c x : Nat) : Nat := if x > c then 1 else x

/-- The do-while candidate scan of `NextId`: take the cursor as candidate,
advance the cursor (wrapping from `max_descriptors_` back to `1`), and
retry while the candidate is recorded in `alloc_map_`. The C++ loop is
unbounded; the embedding carries explicit fuel, and `scanLoop_isSome`
below proves that `max_descriptors_` steps always suffice on reachable
states, so the `none` (fuel exhausted) branch is never taken there. -/
def scanLoop (c : Nat) : Nat → Nat → Finset Nat → Option (Nat × Nat)
  | 0, _, _ => none
  | fuel + 1, cursor, live =>
    let nxt := wrapNext c (cursor + 1)
    if cursor ∈ live then scanLoop c fuel nxt live else some (cursor, nxt)

/-- Embedding of `DescriptorHeap::NextId`. Returns the allocated id (0 on
capacity exhaustion or when disabled) and the updated heap state. -/
def NextId (h : DescriptorHeap) (handle : Nat) : Nat × DescriptorHeap :=
  if h.maxDescriptors = 0 then (0, h)
  else if h.maxDescriptors ≤ h.allocMap.card then (0, h)
  else
    match scanLoop h.maxDescriptors h.maxDescriptors h.nextId h.allocMap with
    | some (result, nxt) =>
      (result,
        { h with
          nextId := nxt
          allocMap := insert result h.allocMap
          owners := fun j => if j = result then some handle else h.owners j
          gpuHeapState := setBitWord h.gpuHeapState result })
    | none => (0, h)

/-- Embedding of `DescriptorHeap::DeleteId`: clear the bit, erase the
live-map record; the scan cursor is untouched. No-op when disabled. -/
def DeleteId (h : DescriptorHeap) (id : Nat) : DescriptorHeap :=
  if 0 < h.maxDescriptors then
    { h with
      allocMap := h.allocMap.erase id
      owners := fun j => if j = id then none else h.owners j
      gpuHeapState := clearBitWord h.gpuHeapState id }
  else h

/-- Heap state right after the `DescriptorHeap` constructor: empty live
map, zero-filled bitmap. Modelled from the spec: the initial value of the
scan cursor `next_id_` is set in the class declaration
(`gpuav_descriptor_set.h`, outside the excerpt); the spec's scan ranges
over `[1, capacity]`, wrapping from `capacity` back to `1` and never
revisiting `0`, so the cursor starts at `1`. -/
def initHeap (c : Nat) : DescriptorHeap :=
  { maxDescriptors := c
    nextId := 1
    allocMap := ∅
    owners := fun _ => none
    gpuHeapState := fun _ => 0 }

/-- Heap states reachable by any sequence of `NextId` / `DeleteId` calls
after construction with capacity `c`. -/
inductive Reachable (c : Nat) : DescriptorHeap → Prop where
  | init : Reachable c (initHeap c)
  | next (h : DescriptorHeap) (handle : Nat) :
      Reachable c h → Reachable c (NextId h handle).2
  | del (h : DescriptorHeap) (id : Nat) :
      Reachable c h → Reachable c (DeleteId h id)

/-- Internal invariant of the heap: the capacity is the construction-time
one, the cursor stays in `[1, c]` while active, live identifiers stay in
`[1, c]`, and every bit of the device-visible bitmap mirrors membership in
the live map. -/
def HeapInv (c : Nat) (h : DescriptorHeap) : Prop :=
  h.maxDescriptors = c ∧
  (0 < c → 1 ≤ h.nextId ∧ h.nextId ≤ c) ∧
  (∀ i ∈ h.allocMap, 1 ≤ i ∧ i ≤ c) ∧
  (∀ i : Nat, (h.gpuHeapState (i / 32)).testBit (i % 32) = true ↔ i ∈ h.allocMap)

/-- Candidate visited by the scan after `k` advances from `cursor` (proof
device used to reason about `scanLoop`). -/
def cand (c cursor k : Nat) : Nat := (cursor - 1 + k) % c + 1

/-! ## Descriptor classes and records -/

/-- The `vvl::DescriptorClass` enumeration. -/
inductive DescriptorClass where
  | PlainSampler
  | ImageSampler
  | Image
  | TexelBuffer
  | GeneralBuffer
  | InlineUniform
  | AccelerationStructure
  | Mutable
  | NoDescriptorClass
deriving DecidableEq, Repr

/-- The `glsl::DescriptorState` record written into the snapshot buffer:
`{ descriptor class tag, primary resource identifier, extent }`. The
struct is declared in `gpu_shader_resources.h` (outside the excerpt); its
shape is taken from the spec's exposed binary layout
`{ class_tag : u32, primary_id : u32, extent : u32 }`. -/
structure DescriptorState where
  descClass : DescriptorClass
  id : Nat
  extent : Nat
deriving DecidableEq, Repr

/-- Modelled from the spec: construction of a `glsl::DescriptorState` from
a class tag and an identifier only (the source's two-argument constructor
calls); per the spec the extent "defaults to `0` for classes with no
extent semantics". -/
def mkDescriptorState2 (dc : DescriptorClass) (i : Nat) : DescriptorState :=
  { descClass := dc, id := i, extent := 0 }

/-- Construction of a `glsl::DescriptorState` from class tag, identifier
and extent (the source's three-argument constructor calls). -/
def mkDescriptorState3 (dc : DescriptorClass) (i e : Nat) : DescriptorState :=
  { descClass := dc, id := i, extent := e }

/-- Modelled from the spec: the default-constructed `glsl::DescriptorState()`
written for never-updated elements (the default constructor lives in
`gpu_shader_resources.h`, outside the excerpt). Per the spec, an unbound
element "yields a record whose identifier equals the reserved
skip-sentinel and whose extent equals the reserved max-unsigned sentinel";
the nullary constructor cannot know the binding's class, so the class slot
carries the `NoDescriptorClass` tag. -/
def defaultDescriptorState : DescriptorState :=
  { descClass := DescriptorClass.NoDescriptorClass
    id := kDebugInputBindlessSkipId
    extent := kU32Max }

/-! ## Resource objects and descriptors

Resource state objects carry the identifier issued by the heap plus the
fields the extraction functions read. A destroyed backing resource shows
up as `none` on the owning descriptor (the source's null state pointer). -/

structure BufferResource where
  id : Nat
  createInfoSize : Nat
deriving DecidableEq, Repr

structure BufferViewResource where
  id : Nat
  viewSize : Nat
  formatElementSize : Nat
deriving DecidableEq, Repr

structure ImageViewResource where
  id : Nat
deriving DecidableEq, Repr

structure SamplerResource where
  id : Nat
deriving DecidableEq, Repr

structure AccelerationStructureResource where
  id : Nat
deriving DecidableEq, Repr

/-- A `vvl::BufferDescriptor`: buffer state pointer plus the bound offset
and range (`none` encodes `VK_WHOLE_SIZE`). -/
structure BufferDescriptor where
  bufferState : Option BufferResource
  offset : Nat
  range : Option Nat
deriving DecidableEq, Repr

/-- Modelled from the spec: `vvl::BufferDescriptor::GetEffectiveRange`
(defined in the external state tracker, outside the excerpt) — the
descriptor's effective byte range: the explicitly bound range when one was
given, otherwise (`VK_WHOLE_SIZE` binding) the rest of the buffer from the
bound offset. The value for a whole-size binding on a destroyed buffer is
immaterial: every caller short-circuits on a null buffer state first. -/
def GetEffectiveRange (d : BufferDescriptor) : Nat :=
  match d.range with
  | some r => r
  | none =>
    match d.bufferState with
    | some b => b.createInfoSize - d.offset
    | none => 0

/-- Embedding of `GetInData(const vvl::BufferDescriptor &)`. The
`static_cast<uint32_t>` of the 64-bit range is the `% 2^32` reduction. -/
def getInDataBufferDesc (d : BufferDescriptor) : DescriptorState :=
  match d.bufferState with
  | none => mkDescriptorState3 .GeneralBuffer kDebugInputBindlessSkipId kU32Max
  | some b => mkDescriptorState3 .GeneralBuffer b.id (GetEffectiveRange d % 2 ^ 32)

structure TexelDescriptor where
  bufferViewState : Option BufferViewResource
deriving DecidableEq, Repr

/-- Embedding of `GetInData(const vvl::TexelDescriptor &)`: the view byte
size divided by the format element size, truncated to 32 bits. -/
def getInDataTexelDesc (d : TexelDescriptor) : DescriptorState :=
  match d.bufferViewState with
  | none => mkDescriptorState3 .TexelBuffer kDebugInputBindlessSkipId kU32Max
  | some v => mkDescriptorState3 .TexelBuffer v.id (v.viewSize / v.formatElementSize % 2 ^ 32)

structure ImageDescriptor where
  imageViewState : Option ImageViewResource
deriving DecidableEq, Repr

/-- Embedding of `GetInData(const vvl::ImageDescriptor &)`: null image
view state falls back to the skip sentinel. -/
def getInDataImageDesc (d : ImageDescriptor) : DescriptorState :=
  mkDescriptorState2 .Image
    (match d.imageViewState with
     | some s => s.id
     | none => kDebugInputBindlessSkipId)

structure SamplerDescriptor where
  samplerState : Option SamplerResource
deriving DecidableEq, Repr

/-- Embedding of `GetInData(const vvl::SamplerDescriptor &)`: the source
reads `sampler_state->id` with no null check, so a destroyed (null)
sampler state is dereferenced; the embedding returns `none` exactly in
that undefined-behavior case. -/
def getInDataSamplerDesc (d : SamplerDescriptor) : Option DescriptorState :=
  match d.samplerState with
  | some s => some (mkDescriptorState2 .PlainSampler s.id)
  | none => none

structure ImageSamplerDescriptor where
  imageViewState : Option ImageViewResource
  samplerState : Option SamplerResource
deriving DecidableEq, Repr

/-- Embedding of `GetInData(const vvl::ImageSamplerDescriptor &)`: both
pointers are null-checked; a missing image gives the skip sentinel and a
missing sampler gives `0` in the extent slot. -/
def getInDataImageSamplerDesc (d : ImageSamplerDescriptor) : DescriptorState :=
  mkDescriptorState3 .ImageSampler
    (match d.imageViewState with
     | some s => s.id
     | none => kDebugInputBindlessSkipId)
    (match d.samplerState with
     | some s => s.id
     | none => 0)

structure AccelerationStructureDescriptor where
  isKHR : Bool
  accelKHRState : Option AccelerationStructureResource
  accelNVState : Option AccelerationStructureResource
deriving DecidableEq, Repr

/-- Embedding of `GetInData(const vvl::AccelerationStructureDescriptor &)`. -/
def getInDataAccelDesc (d : AccelerationStructureDescriptor) : DescriptorState :=
  mkDescriptorState2 .AccelerationStructure
    (if d.isKHR then
       match d.accelKHRState with
       | some s => s.id
       | none => kDebugInputBindlessSkipId
     else
       match d.accelNVState with
       | some s => s.id
       | none => kDebugInputBindlessSkipId)

/-- A `vvl::MutableDescriptor`: the currently active class plus the shared
state pointers the per-class arms read. -/
structure MutableDescriptor where
  activeClass : DescriptorClass
  sharedBufferState : Option BufferResource
  sharedBufferViewState : Option BufferViewResource
  sharedImageViewState : Option ImageViewResource
  sharedSamplerState : Option SamplerResource
  isKHR : Bool
  accelKHRState : Option AccelerationStructureResource
  accelNVState : Option AccelerationStructureResource
deriving DecidableEq, Repr

/-- Embedding of `GetInData(const vvl::MutableDescriptor &)`, dispatching
on `desc.ActiveClass()`. The `GeneralBuffer` arm reads
`buffer_state->create_info.size` (the whole buffer size), unlike the
direct overload which reads `desc.GetEffectiveRange()`. The
`PlainSampler` arm dereferences the sampler state without a null check,
embedded as `none` in that case. The `default:` arm
(`assert(false)` fallthrough) returns the skip/max record. -/
def getInDataMutableDesc (d : MutableDescriptor) : Option DescriptorState :=
  match d.activeClass with
  | .GeneralBuffer =>
    match d.sharedBufferState with
    | none => some (mkDescriptorState3 .GeneralBuffer kDebugInputBindlessSkipId kU32Max)
    | some b => some (mkDescriptorState3 .GeneralBuffer b.id (b.createInfoSize % 2 ^ 32))
  | .TexelBuffer =>
    match d.sharedBufferViewState with
    | none => some (mkDescriptorState3 .TexelBuffer kDebugInputBindlessSkipId kU32Max)
    | some v => some (mkDescriptorState3 .TexelBuffer v.id (v.viewSize / v.formatElementSize % 2 ^ 32))
  | .PlainSampler =>
    match d.sharedSamplerState with
    | some s => some (mkDescriptorState2 .PlainSampler s.id)
    | none => none
  | .ImageSampler =>
    some (mkDescriptorState3 .ImageSampler
      (match d.sharedImageViewState with
       | some s => s.id
       | none => kDebugInputBindlessSkipId)
      (match d.sharedSamplerState with
       | some s => s.id
       | none => 0))
  | .Image =>
    some (mkDescriptorState2 .Image
      (match d.sharedImageViewState with
       | some s => s.id
       | none => kDebugInputBindlessSkipId))
  | .AccelerationStructure =>
    some (mkDescriptorState2 .AccelerationStructure
      (if d.isKHR then
         match d.accelKHRState with
         | some s => s.id
         | none => kDebugInputBindlessSkipId
       else
         match d.accelNVState with
         | some s => s.id
         | none => kDebugInputBindlessSkipId))
  | _ => some (mkDescriptorState3 d.activeClass kDebugInputBindlessSkipId kU32Max)

/-! ## Bindings -/

/-- Per-class descriptor storage of a binding (`vvl::*Binding::descriptors`),
embedded as a total index function (the source indexes `descriptors[di]`
for `di < count`). The constructor is the binding's `descriptor_class`. -/
inductive BindingDescriptors where
  | generalBuffer (ds : Nat → BufferDescriptor)
  | texelBuffer (ds : Nat → TexelDescriptor)
  | image (ds : Nat → ImageDescriptor)
  | plainSampler (ds : Nat → SamplerDescriptor)
  | imageSampler (ds : Nat → ImageSamplerDescriptor)
  | accelerationStructure (ds : Nat → AccelerationStructureDescriptor)
  | mutableDesc (ds : Nat → MutableDescriptor)
  | inlineUniform

/-- The `descriptor_class` tag of a binding's storage. -/
def descriptorClassOf : BindingDescriptors → DescriptorClass
  | .generalBuffer _ => .GeneralBuffer
  | .texelBuffer _ => .TexelBuffer
  | .image _ => .Image
  | .plainSampler _ => .PlainSampler
  | .imageSampler _ => .ImageSampler
  | .accelerationStructure _ => .AccelerationStructure
  | .mutableDesc _ => .Mutable
  | .inlineUniform => .InlineUniform

/-- One slot of `bindings_`: binding index, declared element count, the
per-element update flags and the per-class descriptor storage. -/
structure SetBinding where
  bindingIndex : Nat
  count : Nat
  updated : Nat → Bool
  descriptors : BindingDescriptors

/-- The source's check `binding->type == VK_DESCRIPTOR_TYPE_INLINE_UNIFORM_BLOCK_EXT`:
in the state tracker a binding has that descriptor type exactly when its
descriptor class is `InlineUniform`. -/
def SetBinding.typeIsInlineUniformBlock (b : SetBinding) : Bool :=
  descriptorClassOf b.descriptors == DescriptorClass.InlineUniform

/-- Embedding of the generic `FillBindingInData` template body: one record
per element in index order; a never-updated element gets the
default-constructed record, an updated one gets its `GetInData` result
(`none` marks the sampler null-dereference cases). -/
def fillRange (count : Nat) (updated : Nat → Bool)
    (f : Nat → Option DescriptorState) : List (Option DescriptorState) :=
  (List.range count).map fun di =>
    if updated di = false then some defaultDescriptorState else f di

/-- Embedding of `FillBindingInData` dispatched over the binding's
descriptor class, including the `vvl::InlineUniformBinding`
specialization, which writes exactly one skip/max record. -/
def fillBindingInData (b : SetBinding) : List (Option DescriptorState) :=
  match b.descriptors with
  | .inlineUniform =>
    [some (mkDescriptorState3 .InlineUniform kDebugInputBindlessSkipId kU32Max)]
  | .generalBuffer ds =>
    fillRange b.count b.updated fun di => some (getInDataBufferDesc (ds di))
  | .texelBuffer ds =>
    fillRange b.count b.updated fun di => some (getInDataTexelDesc (ds di))
  | .image ds =>
    fillRange b.count b.updated fun di => some (getInDataImageDesc (ds di))
  | .plainSampler ds =>
    fillRange b.count b.updated fun di => getInDataSamplerDesc (ds di)
  | .imageSampler ds =>
    fillRange b.count b.updated fun di => some (getInDataImageSamplerDesc (ds di))
  | .accelerationStructure ds =>
    fillRange b.count b.updated fun di => some (getInDataAccelDesc (ds di))
  | .mutableDesc ds =>
    fillRange b.count b.updated fun di => getInDataMutableDesc (ds di)

/-! ## Binding-set layout buffer (`DescriptorSet::GetLayoutState`) -/

/-- The `glsl::BindingLayout` record `{ count, state_start }`. -/
structure BindingLayout where
  count : Nat
  state_start : Nat
deriving DecidableEq, Repr

/-- One store `layout_data[i] = v` into the mapped layout buffer, embedded
as a pointwise function update. -/
def writeSlot (arr : Nat → BindingLayout) (i : Nat) (v : BindingLayout) :
    Nat → BindingLayout :=
  fun j => if j = i then v else arr j

/-- The walk over `bindings_` of `GetLayoutState`: write
`{ element_count, running_offset }` at slot `binding + 1`, advancing the
running offset by the element count; an inline-uniform-block binding
writes and advances by exactly 1. -/
def layoutWalk : List SetBinding → (Nat → BindingLayout) → Nat → (Nat → BindingLayout)
  | [], arr, _ => arr
  | b :: rest, arr, start =>
    if b.typeIsInlineUniformBlock then
      layoutWalk rest (writeSlot arr (b.bindingIndex + 1) ⟨1, start⟩) (start + 1)
    else
      layoutWalk rest (writeSlot arr (b.bindingIndex + 1) ⟨b.count, start⟩) (start + b.count)

/-- Modelled from the spec: `GetLayout()->GetMaxBinding()` (external state
tracker) — the "highest declared binding index" of the set. -/
def maxBinding (bs : List SetBinding) : Nat :=
  bs.foldl (fun m b => max m b.bindingIndex) 0

/-- The source's `num_bindings = (GetBindingCount() > 0) ? GetMaxBinding() + 1 : 0`. -/
def numBindings (bs : List SetBinding) : Nat :=
  if 0 < bs.length then maxBinding bs + 1 else 0

/-- The mapped contents of the layout buffer built by `GetLayoutState`:
`memset` to zero, slot 0 set to `{ num_bindings, 0 }`, then the walk over
the bindings. -/
def buildLayoutData (bs : List SetBinding) : Nat → BindingLayout :=
  layoutWalk bs (writeSlot (fun _ => ⟨0, 0⟩) 0 ⟨numBindings bs, 0⟩) 0

/-- Effective element contribution of a binding to the flat record array
(inline uniform blocks contribute exactly 1). -/
def effCount (b : SetBinding) : Nat :=
  if b.typeIsInlineUniformBlock then 1 else b.count

/-! ## Versioned snapshot cache (`DescriptorSet::GetCurrentState`) -/

/-- A `DescriptorSet::State` snapshot: the version stamp it was built at,
an allocation identity (distinct for every `std::make_shared<State>`call,
so that object identity is expressible), and the mapped record-buffer
contents (`none` for the bufferless dummy state of an empty set). -/
structure SetState where
  version : Nat
  buildId : Nat
  content : Option (List (Option DescriptorState))
deriving DecidableEq, Repr

/-- The `gpuav::DescriptorSet` fields the snapshot cache uses: the
`current_version_` counter, the cached `last_used_state_`, a fresh-build
counter modelling `std::make_shared<State>` allocation identity, and the
bindings. -/
structure GDescriptorSet where
  currentVersion : Nat
  lastUsedState : Option SetState
  nextBuild : Nat
  bindings : List SetBinding

/-- The `descriptor_count` accumulation of `GetCurrentState`: inline
uniform block bindings count as 1, others by their declared count. -/
def descriptorCountOf (bs : List SetBinding) : Nat :=
  bs.foldl (fun acc b => acc + (if b.typeIsInlineUniformBlock then 1 else b.count)) 0

/-- The record-buffer contents written by the fill loop of
`GetCurrentState`: each binding's records appended in binding order. -/
def buildStateData (bs : List SetBinding) : List (Option DescriptorState) :=
  bs.foldl (fun acc b => acc ++ fillBindingInData b) []

/-- The slow path of `GetCurrentState`: make a fresh `State` stamped with
the current version, build the record buffer unless the set is empty, and
cache it. -/
def buildCurrentState (ds : GDescriptorSet) : SetState × GDescriptorSet :=
  let dcount := descriptorCountOf ds.bindings
  let st : SetState :=
    { version := ds.currentVersion
      buildId := ds.nextBuild
      content := if dcount = 0 then none else some (buildStateData ds.bindings) }
  (st, { ds with lastUsedState := some st, nextBuild := ds.nextBuild + 1 })

/-- Embedding of `DescriptorSet::GetCurrentState`: return the cached
snapshot when its stamp equals the current version, otherwise rebuild. -/
def GetCurrentState (ds : GDescriptorSet) : SetState × GDescriptorSet :=
  match ds.lastUsedState with
  | some s => if s.version = ds.currentVersion then (s, ds) else buildCurrentState ds
  | none => buildCurrentState ds

/-- Embedding of `DescriptorSet::PerformWriteUpdate`: the base-class
update (external state tracker, abstracted as `upd`) followed by
`current_version_++`. -/
def PerformWriteUpdate (upd : List SetBinding → List SetBinding)
    (ds : GDescriptorSet) : GDescriptorSet :=
  { ds with bindings := upd ds.bindings, currentVersion := ds.currentVersion + 1 }

/-- Embedding of `DescriptorSet::PerformCopyUpdate`. -/
def PerformCopyUpdate (upd : List SetBinding → List SetBinding)
    (ds : GDescriptorSet) : GDescriptorSet :=
  { ds with bindings := upd ds.bindings, currentVersion := ds.currentVersion + 1 }

/-- Embedding of `DescriptorSet::PerformPushDescriptorsUpdate`. -/
def PerformPushDescriptorsUpdate (upd : List SetBinding → List SetBinding)
    (ds : GDescriptorSet) : GDescriptorSet :=
  { ds with bindings := upd ds.bindings, currentVersion := ds.currentVersion + 1 }

/-! ## Usage-output decode (`DescriptorSet::State::UsedDescriptors`) -/

/-- Inner loop of `UsedDescriptors` for one binding: the element indices
`i < count` whose output slot `data[start + i]` equals the tag, in
ascending order. -/
def scanBinding (data : Nat → Nat) (tag start count : Nat) : List Nat :=
  (List.range count).filter fun i => data (start + i) == tag

/-- Embedding of `DescriptorSet::State::UsedDescriptors`: empty when the
state has no backing output buffer (`!buffer.allocation`); otherwise walk
bindings `0 ..< layout_data[0].count`, reading each binding's
`{count, state_start}` pair from the layout buffer and collecting matching
element indices. The `std::map` built in ascending binding order is
embedded as the ordered association list of bindings with at least one
match. -/
def UsedDescriptors (hasAllocation : Bool) (layoutData : Nat → BindingLayout)
    (data : Nat → Nat) (tag : Nat) : List (Nat × List Nat) :=
  if hasAllocation = false then []
  else
    (List.range (layoutData 0).count).filterMap fun binding =>
      let hits := scanBinding data tag (layoutData (binding + 1)).state_start
        (layoutData (binding + 1)).count
      if hits.isEmpty then none else some (binding, hits)

/-! ## Concrete instances used in the worked examples -/

/-- An image binding at index `i` with `c` never-updated elements, used to
instantiate the documented layout example. -/
def exLayoutBinding (i c : Nat) : SetBinding :=
  { bindingIndex := i
    count := c
    updated := fun _ => false
    descriptors := .image fun _ => { imageViewState := none } }

/-- The documented worked example: bindings at indices 0, 1, 3 with
element counts 3, 1, 2. -/
def exLayoutBindings : List SetBinding :=
  [exLayoutBinding 0 3, exLayoutBinding 1 1, exLayoutBinding 3 2]

/-- Layout-buffer contents for the `UsedDescriptors` worked example: one
binding (slot 0 count 1), binding 0 with 3 elements at offset 0. -/
def exUsedLayout : Nat → BindingLayout :=
  fun j => if j = 0 then ⟨1, 0⟩ else if j = 1 then ⟨3, 0⟩ else ⟨0, 0⟩

/-- Output-buffer contents for the `UsedDescriptors` worked example:
slots 0 and 2 stamped with tag 7, slot 1 left 0. -/
def exUsedData : Nat → Nat :=
  fun p => if p = 0 then 7 else if p = 2 then 7 else 0

/-- A mutable descriptor whose active class is `PlainSampler` and whose
backing sampler object has been destroyed. -/
def exDeadSamplerMutable : MutableDescriptor :=
  { activeClass := .PlainSampler
    sharedBufferState := none
    sharedBufferViewState := none
    sharedImageViewState := none
    sharedSamplerState := none
    isKHR := false
    accelKHRState := none
    accelNVState := none }

/-- A live 100-byte buffer with identifier 7. -/
def exBuffer7 : BufferResource := { id := 7, createInfoSize := 100 }

/-- A mutable descriptor whose active class is `GeneralBuffer`, bound to
`exBuffer7`. -/
def exMutableGB7 : MutableDescriptor :=
  { activeClass := .GeneralBuffer
    sharedBufferState := some exBuffer7
    sharedBufferViewState := none
    sharedImageViewState := none
    sharedSamplerState := none
    isKHR := false
    accelKHRState := none
    accelNVState := none }

/-- A direct general-buffer descriptor bound to `exBuffer7` with an
explicit 50-byte range. -/
def exDirectGB7 : BufferDescriptor :=
  { bufferState := some exBuffer7, offset := 0, range := some 50 }

/-- A descriptor set with no bindings, fresh from construction. -/
def exEmptySet : GDescriptorSet :=
  { currentVersion := 0, lastUsedState := none, nextBuild := 0, bindings := [] }

/-- The 31-mask of the source (`id & 31`) is reduction modulo 32. -/
lemma land31 (x : Nat) : x &&& 31 = x % 32 := by
  apply Nat.eq_of_testBit_eq
  intro i
  have h32 : (32 : Nat) = 2 ^ 5 := by norm_num
  have h31 : (31 : Nat) = 2 ^ 5 - 1 := by norm_num
  rw [Nat.testBit_land, h31, Nat.testBit_two_pow_sub_one, h32, Nat.testBit_mod_two_pow,
    Bool.and_comm]

lemma one_shiftLeft_land31 (id : Nat) : 1 <<< (id &&& 31) = 2 ^ (id % 32) := by
  rw [Nat.one_shiftLeft, land31]

lemma eq_of_div_mod_eq32 {i r : Nat} (hd : i / 32 = r / 32) (hm : i % 32 = r % 32) :
    i = r := by
  have h1 := Nat.div_add_mod i 32
  have h2 := Nat.div_add_mod r 32
  omega

/-- Setting bit `id` changes exactly the bit addressed by `(id / 32, id % 32)`. -/
lemma testBit_setBitWord (w : Nat → Nat) (id i : Nat) :
    ((setBitWord w id) (i / 32)).testBit (i % 32) =
      ((w (i / 32)).testBit (i % 32) || decide (i = id)) := by
  unfold setBitWord
  by_cases hd : i / 32 = id / 32
  · rw [if_pos hd, Nat.testBit_lor, one_shiftLeft_land31]
    by_cases hm : i % 32 = id % 32
    · have hii : i = id := eq_of_div_mod_eq32 hd hm
      subst hii
      simp [Nat.testBit_two_pow_self]
    · have hne : id % 32 ≠ i % 32 := fun h => hm h.symm
      have hine : i ≠ id := fun h => hm (by rw [h])
      rw [Nat.testBit_two_pow_of_ne hne]
      simp [hine]
  · rw [if_neg hd]
    have hine : i ≠ id := fun h => hd (by rw [h])
    simp [hine]

/-- Clearing bit `id` changes exactly the bit addressed by `(id / 32, id % 32)`. -/
lemma testBit_clearBitWord (w : Nat → Nat) (id i : Nat) :
    ((clearBitWord w id) (i / 32)).testBit (i % 32) =
      ((w (i / 32)).testBit (i % 32) && !(decide (i = id))) := by
  unfold clearBitWord
  by_cases hd : i / 32 = id / 32
  · rw [if_pos hd, Nat.testBit_land, Nat.testBit_xor, one_shiftLeft_land31]
    have hmax : (2 ^ 32 - 1 : Nat).testBit (i % 32) = true := by
      rw [Nat.testBit_two_pow_sub_one]
      exact decide_eq_true (Nat.mod_lt i (by norm_num))
    rw [hmax]
    by_cases hm : i % 32 = id % 32
    · have hii : i = id := eq_of_div_mod_eq32 hd hm
      subst hii
      simp [Nat.testBit_two_pow_self]
    · have hne : id % 32 ≠ i % 32 := fun h => hm h.symm
      have hine : i ≠ id := fun h => hm (by rw [h])
      rw [Nat.testBit_two_pow_of_ne hne]
      simp [hine]
  · rw [if_neg hd]
    have hine : i ≠ id := fun h => hd (by rw [h])
    simp [hine]

/-- Results of a successful scan: the candidate is not live, and (while the
cursor stays in `[1, c]`) both the result and the new cursor are in `[1, c]`. -/
lemma scanLoop_some_spec (c : Nat) :
    ∀ fuel cursor live r n, scanLoop c fuel cursor live = some (r, n) →
      r ∉ live ∧ (0 < c → 1 ≤ cursor → cursor ≤ c →
        1 ≤ r ∧ r ≤ c ∧ 1 ≤ n ∧ n ≤ c) := by
  intro fuel
  induction fuel with
  | zero => intro cursor live r n h; simp [scanLoop] at h
  | succ fuel ih =>
    intro cursor live r n h
    rw [scanLoop] at h
    by_cases hmem : cursor ∈ live
    · rw [if_pos hmem] at h
      have hrec := ih (wrapNext c (cursor + 1)) live r n h
      refine ⟨hrec.1, fun hc h1 h2 => ?_⟩
      have hw1 : 1 ≤ wrapNext c (cursor + 1) := by unfold wrapNext; split <;> omega
      have hw2 : wrapNext c (cursor + 1) ≤ c := by unfold wrapNext; split <;> omega
      exact hrec.2 hc hw1 hw2
    · rw [if_neg hmem] at h
      have hrn : cursor = r ∧ wrapNext c (cursor + 1) = n := by simpa using h
      obtain ⟨hr1, hr2⟩ := hrn
      refine ⟨hr1 ▸ hmem, fun hc h1 h2 => ?_⟩
      have hw1 : 1 ≤ wrapNext c (cursor + 1) := by unfold wrapNext; split <;> omega
      have hw2 : wrapNext c (cursor + 1) ≤ c := by unfold wrapNext; split <;> omega
      omega

lemma cand_zero {c cursor : Nat} (h1 : 1 ≤ cursor) (h2 : cursor ≤ c) :
    cand c cursor 0 = cursor := by
  unfold cand
  rw [Nat.add_zero, Nat.mod_eq_of_lt (by omega)]
  omega

lemma cand_step {c cursor : Nat} (hc : 0 < c) (h1 : 1 ≤ cursor) (h2 : cursor ≤ c)
    (k : Nat) : cand c cursor (k + 1) = cand c (wrapNext c (cursor + 1)) k := by
  unfold cand wrapNext
  by_cases h : cursor + 1 > c
  · have hcc : cursor = c := by omega
    rw [if_pos h, hcc]
    have e1 : c - 1 + (k + 1) = k + c := by omega
    have e2 : (1 : Nat) - 1 + k = k := by omega
    rw [e1, e2, Nat.add_mod_right]
  · rw [if_neg h]
    have e1 : cursor - 1 + (k + 1) = cursor + 1 - 1 + k := by omega
    rw [e1]

/-- When some candidate within the fuel budget is free, the scan succeeds. -/
lemma scanLoop_isSome (c : Nat) (hc : 0 < c) :
    ∀ fuel cursor live, 1 ≤ cursor → cursor ≤ c →
      (∃ k, k < fuel ∧ cand c cursor k ∉ live) →
      (scanLoop c fuel cursor live).isSome = true := by
  intro fuel
  induction fuel with
  | zero =>
    intro cursor live _ _ hex
    obtain ⟨k, hk, _⟩ := hex
    exact absurd hk (Nat.not_lt_zero k)
  | succ fuel ih =>
    intro cursor live h1 h2 hex
    rw [scanLoop]
    by_cases hmem : cursor ∈ live
    · rw [if_pos hmem]
      obtain ⟨k, hk, hfree⟩ := hex
      have hk0 : k ≠ 0 := by
        intro h0
        rw [h0, cand_zero h1 h2] at hfree
        exact hfree hmem
      obtain ⟨k', rfl⟩ := Nat.exists_eq_succ_of_ne_zero hk0
      rw [cand_step hc h1 h2] at hfree
      have hw1 : 1 ≤ wrapNext c (cursor + 1) := by unfold wrapNext; split <;> omega
      have hw2 : wrapNext c (cursor + 1) ≤ c := by unfold wrapNext; split <;> omega
      exact ih (wrapNext c (cursor + 1)) live hw1 hw2 ⟨k', by omega, hfree⟩
    · rw [if_neg hmem]
      rfl

/-- With fewer than `c` live identifiers, some of the first `c` candidates
is free: the scan enumerates all of `[1, c]` in `c` steps. -/
lemma exists_cand_not_live {c cursor : Nat} (hc : 0 < c) (h1 : 1 ≤ cursor)
    (h2 : cursor ≤ c) (live : Finset Nat) (hsub : ∀ i ∈ live, 1 ≤ i ∧ i ≤ c)
    (hcard : live.card < c) : ∃ k, k < c ∧ cand c cursor k ∉ live := by
  have hsub' : live ⊆ Finset.Icc 1 c := fun i hi =>
    Finset.mem_Icc.mpr (hsub i hi)
  obtain ⟨x, hx, hxfree⟩ : ∃ x ∈ Finset.Icc 1 c, x ∉ live := by
    by_contra hall
    push_neg at hall
    have : Finset.Icc 1 c ⊆ live := fun x hx => hall x hx
    have hcard2 := Finset.card_le_card this
    rw [Nat.card_Icc] at hcard2
    omega
  rw [Finset.mem_Icc] at hx
  refine ⟨(x - 1 + c - (cursor - 1)) % c, Nat.mod_lt _ hc, ?_⟩
  have heq : cand c cursor ((x - 1 + c - (cursor - 1)) % c) = x := by
    unfold cand
    have e1 : cursor - 1 + (x - 1 + c - (cursor - 1)) = x - 1 + c := by omega
    rw [Nat.add_mod_mod, e1, Nat.add_mod_right, Nat.mod_eq_of_lt (by omega)]
    omega
  rw [heq]
  exact hxfree

lemma heapInv_init (c : Nat) : HeapInv c (initHeap c) := by
  refine ⟨rfl, fun hc => ⟨le_refl 1, hc⟩, fun i hi => absurd hi (by simp [initHeap]), ?_⟩
  intro i
  simp [initHeap]

lemma heapInv_next {c : Nat} {h : DescriptorHeap} (handle : Nat)
    (hinv : HeapInv c h) : HeapInv c (NextId h handle).2 := by
  obtain ⟨hmax, hcur, hsub, hbit⟩ := hinv
  unfold NextId
  by_cases h0 : h.maxDescriptors = 0
  · rw [if_pos h0]; exact ⟨hmax, hcur, hsub, hbit⟩
  · rw [if_neg h0]
    by_cases hfull : h.maxDescriptors ≤ h.allocMap.card
    · rw [if_pos hfull]; exact ⟨hmax, hcur, hsub, hbit⟩
    · rw [if_neg hfull]
      cases hscan : scanLoop h.maxDescriptors h.maxDescriptors h.nextId h.allocMap with
      | none => exact ⟨hmax, hcur, hsub, hbit⟩
      | some rn =>
        obtain ⟨r, n⟩ := rn
        dsimp only
        have hc : 0 < c := by omega
        have hcb := hcur hc
        have hspec := scanLoop_some_spec h.maxDescriptors h.maxDescriptors
          h.nextId h.allocMap r n hscan
        have hbounds := hspec.2 (by omega) (by omega) (by omega)
        refine ⟨hmax, fun _ => ⟨show (1 : Nat) ≤ n by omega, show n ≤ c by omega⟩, ?_, ?_⟩
        · intro i hi
          rcases Finset.mem_insert.mp hi with hir | hiold
          · subst hir; omega
          · exact hsub i hiold
        · intro i
          rw [testBit_setBitWord, Finset.mem_insert]
          constructor
          · intro hor
            rcases Bool.or_eq_true_iff.mp hor with hold | hdec
            · exact Or.inr ((hbit i).mp hold)
            · exact Or.inl (of_decide_eq_true hdec)
          · intro hor
            rcases hor with hir | hiold
            · subst hir; simp
            · rw [(hbit i).mpr hiold]; simp

lemma heapInv_del {c : Nat} {h : DescriptorHeap} (id : Nat)
    (hinv : HeapInv c h) : HeapInv c (DeleteId h id) := by
  obtain ⟨hmax, hcur, hsub, hbit⟩ := hinv
  unfold DeleteId
  by_cases h0 : 0 < h.maxDescriptors
  · rw [if_pos h0]
    refine ⟨hmax, hcur, fun i hi => hsub i (Finset.mem_of_mem_erase hi), ?_⟩
    intro i
    rw [testBit_clearBitWord, Finset.mem_erase]
    constructor
    · intro hand
      have h1 := Bool.and_eq_true_iff.mp hand
      refine ⟨by simpa using h1.2, (hbit i).mp h1.1⟩
    · intro hmem
      rw [(hbit i).mpr hmem.2]
      simpa using hmem.1
  · rw [if_neg h0]; exact ⟨hmax, hcur, hsub, hbit⟩

/-- Every reachable heap state satisfies the internal invariant. -/
lemma reachable_heapInv {c : Nat} {h : DescriptorHeap} (hr : Reachable c h) :
    HeapInv c h := by
  induction hr with
  | init => exact heapInv_init c
  | next h handle _ ih => exact heapInv_next handle ih
  | del h id _ ih => exact heapInv_del id ih

/-- Slots no binding writes are left at the walk's input value. -/
lemma layoutWalk_notin (l : List SetBinding) :
    ∀ (arr : Nat → BindingLayout) (s j : Nat),
      (∀ b ∈ l, j ≠ b.bindingIndex + 1) → layoutWalk l arr s j = arr j := by
  induction l with
  | nil => intro arr s j _; rfl
  | cons b rest ih =>
    intro arr s j hj
    have hjb : j ≠ b.bindingIndex + 1 := hj b (List.mem_cons_self b rest)
    have hjr : ∀ b' ∈ rest, j ≠ b'.bindingIndex + 1 :=
      fun b' hb' => hj b' (List.mem_cons_of_mem b hb')
    simp only [layoutWalk]
    split
    · rw [ih _ _ _ hjr]
      unfold writeSlot
      rw [if_neg hjb]
    · rw [ih _ _ _ hjr]
      unfold writeSlot
      rw [if_neg hjb]

/-- Value written at a binding's slot: its effective count paired with the
running offset accumulated over the bindings walked before it, provided no
later binding shares its index. -/
lemma layoutWalk_split (b : SetBinding) (post : List SetBinding)
    (hpost : ∀ b' ∈ post, b.bindingIndex ≠ b'.bindingIndex) :
    ∀ (pre : List SetBinding) (arr : Nat → BindingLayout) (s : Nat),
      layoutWalk (pre ++ b :: post) arr s (b.bindingIndex + 1) =
        ⟨effCount b, s + (pre.map effCount).sum⟩ := by
  have hpost' : ∀ b' ∈ post, b.bindingIndex + 1 ≠ b'.bindingIndex + 1 :=
    fun b' hb' h => hpost b' hb' (Nat.succ_injective h)
  intro pre
  induction pre with
  | nil =>
    intro arr s
    simp only [List.nil_append, layoutWalk]
    split
    · rename_i hinl
      rw [layoutWalk_notin post _ _ _ hpost']
      unfold writeSlot
      rw [if_pos rfl]
      simp [effCount, hinl]
    · rename_i hinl
      rw [layoutWalk_notin post _ _ _ hpost']
      unfold writeSlot
      rw [if_pos rfl]
      simp only [List.map_nil, List.sum_nil, Nat.add_zero]
      unfold effCount
      rw [if_neg hinl]
  | cons p pre' ih =>
    intro arr s
    simp only [List.cons_append, layoutWalk]
    split
    · rename_i hinl
      simp only [List.append_eq]
      rw [ih]
      simp [effCount, hinl, Nat.add_assoc]
    · rename_i hinl
      simp only [List.append_eq]
      rw [ih]
      have : effCount p = p.count := by unfold effCount; rw [if_neg hinl]
      simp [this, Nat.add_assoc]

/-- After an update bumped the version past every cached stamp,
`GetCurrentState` takes the rebuild path: the result is stamped with the
new current version, carries a fresh allocation identity, and the build
counter advances. -/
lemma rebuild_after_bump (ds ds' : GDescriptorSet)
    (hinv : ∀ s, ds.lastUsedState = some s → s.version ≤ ds.currentVersion)
    (hls : ds'.lastUsedState = ds.lastUsedState)
    (hv : ds'.currentVersion = ds.currentVersion + 1)
    (hnb : ds'.nextBuild = ds.nextBuild) :
    (GetCurrentState ds').1.version = ds'.currentVersion ∧
    (GetCurrentState ds').1.buildId = ds.nextBuild ∧
    (GetCurrentState ds').2.nextBuild = ds.nextBuild + 1 := by
  unfold GetCurrentState
  rcases hls0 : ds.lastUsedState with _ | s
  · rw [hls, hls0]
    simp [buildCurrentState, hnb]
  · rw [hls, hls0]
    dsimp only
    have hne : ¬ s.version = ds'.currentVersion := by
      have := hinv s hls0
      omega
    rw [if_neg hne]
    simp [buildCurrentState, hnb]

/-- C1: for every capacity `C > 0` and every heap state reachable by a
sequence of `NextId`/`DeleteId` calls, a nonzero identifier returned by
`NextId` lies in `[1, C]` and is not currently recorded as live, and
`NextId` returns `0` exactly when the number of live identifiers equals
`C`. -/
theorem nextId_correct (c : Nat) (h : DescriptorHeap) (handle : Nat)
    (hc : 0 < c) (hr : Reachable c h) :
    ((NextId h handle).1 = 0 ↔ h.allocMap.card = c) ∧
    ((NextId h handle).1 ≠ 0 →
      1 ≤ (NextId h handle).1 ∧ (NextId h handle).1 ≤ c ∧
        (NextId h handle).1 ∉ h.allocMap) := by
  obtain ⟨hmax, hcur, hsub, hbit⟩ := reachable_heapInv hr
  have hcb := hcur hc
  have hcard_le : h.allocMap.card ≤ c := by
    have hsub' : h.allocMap ⊆ Finset.Icc 1 c := fun i hi =>
      Finset.mem_Icc.mpr (hsub i hi)
    have hle := Finset.card_le_card hsub'
    rw [Nat.card_Icc] at hle
    omega
  unfold NextId
  simp only [hmax]
  by_cases hfull : c ≤ h.allocMap.card
  · rw [if_neg (by omega), if_pos hfull]
    exact ⟨by constructor <;> intro <;> omega, fun h0 => absurd rfl h0⟩
  · rw [if_neg (by omega), if_neg hfull]
    have hex := exists_cand_not_live hc hcb.1 hcb.2 h.allocMap hsub (by omega)
    have hsome := scanLoop_isSome c hc c h.nextId h.allocMap hcb.1 hcb.2 hex
    cases hscan : scanLoop c c h.nextId h.allocMap with
    | none => rw [hscan] at hsome; exact absurd hsome (by simp)
    | some rn =>
      obtain ⟨r, n⟩ := rn
      dsimp only
      have hspec := scanLoop_some_spec c c h.nextId h.allocMap r n hscan
      have hbounds := hspec.2 hc hcb.1 hcb.2
      exact ⟨by constructor <;> intro <;> omega,
        fun _ => ⟨hbounds.1, hbounds.2.1, hspec.1⟩⟩

theorem nextId_correct_witness :
    (((NextId (initHeap 1) 5).1 = 0 ↔ (initHeap 1).allocMap.card = 1) ∧
      ((NextId (initHeap 1) 5).1 ≠ 0 →
        1 ≤ (NextId (initHeap 1) 5).1 ∧ (NextId (initHeap 1) 5).1 ≤ 1 ∧
          (NextId (initHeap 1) 5).1 ∉ (initHeap 1).allocMap)) :=
  nextId_correct 1 (initHeap 1) 5 (by decide) Reachable.init

/-- C2: in every heap state reachable by any sequence of heap operations
on an active heap (capacity `C > 0`), bit `i` of the device-visible bitmap
(word `i / 32`, bit `i % 32`) is set if and only if identifier `i` is
currently recorded in the live-identifier map, for every `i ≤ C`. -/
theorem bitmap_live_coherent (c : Nat) (h : DescriptorHeap) (i : Nat)
    (hc : 0 < c) (hr : Reachable c h) (hi : i ≤ c) :
    ((h.gpuHeapState (i / 32)).testBit (i % 32) = true ↔ i ∈ h.allocMap) :=
  (reachable_heapInv hr).2.2.2 i

theorem bitmap_live_coherent_witness :
    (((NextId (initHeap 1) 7).2.gpuHeapState (1 / 32)).testBit (1 % 32) = true ↔
      1 ∈ (NextId (initHeap 1) 7).2.allocMap) :=
  bitmap_live_coherent 1 (NextId (initHeap 1) 7).2 1 (by decide)
    (Reachable.next (initHeap 1) 7 Reachable.init) (by decide)

/-- C3: on a heap constructed with capacity 0 (disabled state), `NextId`
returns 0 and leaves the heap unchanged for every handle, and `DeleteId`
is a no-op for every identifier argument. -/
theorem disabled_heap_noop (h : DescriptorHeap) (handle id : Nat)
    (h0 : h.maxDescriptors = 0) :
    NextId h handle = (0, h) ∧ DeleteId h id = h := by
  constructor
  · unfold NextId
    rw [if_pos h0]
  · unfold DeleteId
    rw [if_neg (by omega)]

theorem disabled_heap_noop_witness :
    NextId (initHeap 0) 3 = (0, initHeap 0) ∧ DeleteId (initHeap 0) 4 = initHeap 0 :=
  disabled_heap_noop (initHeap 0) 3 4 rfl

/-- C10: the candidate scan of `NextId` terminates: on any reachable heap
state with fewer than `C` live identifiers (capacity `C > 0`), the
rotating scan finds a free identifier within at most `C` iterations — the
fuel-bounded embedding of the do-while loop succeeds with fuel `C`, so
`NextId` is total on such states. -/
theorem nextId_scan_terminates (c : Nat) (h : DescriptorHeap)
    (hc : 0 < c) (hr : Reachable c h) (hlt : h.allocMap.card < c) :
    (scanLoop c c h.nextId h.allocMap).isSome = true := by
  obtain ⟨hmax, hcur, hsub, hbit⟩ := reachable_heapInv hr
  have hcb := hcur hc
  exact scanLoop_isSome c hc c h.nextId h.allocMap hcb.1 hcb.2
    (exists_cand_not_live hc hcb.1 hcb.2 h.allocMap hsub hlt)

theorem nextId_scan_terminates_witness :
    (scanLoop 1 1 (initHeap 1).nextId (initHeap 1).allocMap).isSome = true :=
  nextId_scan_terminates 1 (initHeap 1) (by decide) Reachable.init (by decide)

/-- C4: the layout-buffer builder writes record 0 as
`{ total binding count, 0 }`; walking bindings in ascending binding-index
order it writes `{ element_count, running_offset }` at slot
`binding_index + 1`, advancing the running offset by the effective element
count (exactly 1 for inline uniform blocks); slots of absent binding
indices stay zeroed; and the worked example (bindings 0, 1, 3 with counts
3, 1, 2) yields offsets 0, 3, 4 with slot 3 (absent index 2) zeroed. -/
theorem layout_buffer_correct :
    (∀ bs : List SetBinding, buildLayoutData bs 0 = ⟨numBindings bs, 0⟩) ∧
    (∀ (pre post : List SetBinding) (b : SetBinding),
      (pre ++ b :: post).Pairwise (fun x y => x.bindingIndex < y.bindingIndex) →
      buildLayoutData (pre ++ b :: post) (b.bindingIndex + 1) =
        ⟨effCount b, (pre.map effCount).sum⟩) ∧
    (∀ (bs : List SetBinding) (j : Nat), j ≠ 0 →
      (∀ b ∈ bs, j ≠ b.bindingIndex + 1) → buildLayoutData bs j = ⟨0, 0⟩) ∧
    (buildLayoutData exLayoutBindings 0 = ⟨4, 0⟩ ∧
      buildLayoutData exLayoutBindings 1 = ⟨3, 0⟩ ∧
      buildLayoutData exLayoutBindings 2 = ⟨1, 3⟩ ∧
      buildLayoutData exLayoutBindings 4 = ⟨2, 4⟩ ∧
      buildLayoutData exLayoutBindings 3 = ⟨0, 0⟩) := by
  refine ⟨?_, ?_, ?_, by decide⟩
  · intro bs
    unfold buildLayoutData
    rw [layoutWalk_notin bs _ _ _ (fun b _ => (Nat.succ_ne_zero b.bindingIndex).symm)]
    unfold writeSlot
    rw [if_pos rfl]
  · intro pre post b hpw
    rw [List.pairwise_append] at hpw
    have hpost : ∀ b' ∈ post, b.bindingIndex ≠ b'.bindingIndex := by
      intro b' hb'
      have := (List.pairwise_cons.mp hpw.2.1).1 b' hb'
      omega
    unfold buildLayoutData
    rw [layoutWalk_split b post hpost pre _ 0, Nat.zero_add]
  · intro bs j hj0 hjb
    unfold buildLayoutData
    rw [layoutWalk_notin bs _ _ _ hjb]
    unfold writeSlot
    rw [if_neg hj0]

theorem layout_buffer_correct_witness :
    (buildLayoutData ([exLayoutBinding 0 3] ++ exLayoutBinding 1 1 :: [exLayoutBinding 3 2])
        ((exLayoutBinding 1 1).bindingIndex + 1) =
      ⟨effCount (exLayoutBinding 1 1), ([exLayoutBinding 0 3].map effCount).sum⟩) ∧
    buildLayoutData exLayoutBindings 5 = ⟨0, 0⟩ :=
  ⟨layout_buffer_correct.2.1 [exLayoutBinding 0 3] [exLayoutBinding 3 2]
      (exLayoutBinding 1 1) (by decide),
    layout_buffer_correct.2.2.1 exLayoutBindings 5 (by decide) (by decide)⟩

/-- C5: calling the snapshot builder twice with no intervening update
returns the identical cached snapshot and leaves the set unchanged (same
allocation identity, no rebuild); each of the write, copy and
push-descriptor updates advances the version counter by exactly one; and
after any of them, the next call returns a freshly built snapshot stamped
with the version read at the start of that call. -/
theorem snapshot_cache_correct :
    (∀ ds : GDescriptorSet, GetCurrentState (GetCurrentState ds).2 = GetCurrentState ds) ∧
    (∀ (upd : List SetBinding → List SetBinding) (ds : GDescriptorSet),
      (PerformWriteUpdate upd ds).currentVersion = ds.currentVersion + 1 ∧
      (PerformCopyUpdate upd ds).currentVersion = ds.currentVersion + 1 ∧
      (PerformPushDescriptorsUpdate upd ds).currentVersion = ds.currentVersion + 1) ∧
    (∀ (upd : List SetBinding → List SetBinding) (ds : GDescriptorSet),
      (∀ s, ds.lastUsedState = some s → s.version ≤ ds.currentVersion) →
      ((GetCurrentState (PerformWriteUpdate upd ds)).1.version =
          (PerformWriteUpdate upd ds).currentVersion ∧
        (GetCurrentState (PerformWriteUpdate upd ds)).1.buildId = ds.nextBuild ∧
        (GetCurrentState (PerformWriteUpdate upd ds)).2.nextBuild = ds.nextBuild + 1)) ∧
    (∀ (upd : List SetBinding → List SetBinding) (ds : GDescriptorSet),
      (∀ s, ds.lastUsedState = some s → s.version ≤ ds.currentVersion) →
      ((GetCurrentState (PerformCopyUpdate upd ds)).1.version =
          (PerformCopyUpdate upd ds).currentVersion ∧
        (GetCurrentState (PerformCopyUpdate upd ds)).1.buildId = ds.nextBuild ∧
        (GetCurrentState (PerformCopyUpdate upd ds)).2.nextBuild = ds.nextBuild + 1)) ∧
    (∀ (upd : List SetBinding → List SetBinding) (ds : GDescriptorSet),
      (∀ s, ds.lastUsedState = some s → s.version ≤ ds.currentVersion) →
      ((GetCurrentState (PerformPushDescriptorsUpdate upd ds)).1.version =
          (PerformPushDescriptorsUpdate upd ds).currentVersion ∧
        (GetCurrentState (PerformPushDescriptorsUpdate upd ds)).1.buildId = ds.nextBuild ∧
        (GetCurrentState (PerformPushDescriptorsUpdate upd ds)).2.nextBuild =
          ds.nextBuild + 1)) := by
  refine ⟨?_, fun upd ds => ⟨rfl, rfl, rfl⟩,
    fun upd ds hinv => rebuild_after_bump ds (PerformWriteUpdate upd ds) hinv rfl rfl rfl,
    fun upd ds hinv => rebuild_after_bump ds (PerformCopyUpdate upd ds) hinv rfl rfl rfl,
    fun upd ds hinv =>
      rebuild_after_bump ds (PerformPushDescriptorsUpdate upd ds) hinv rfl rfl rfl⟩
  intro ds
  rcases hls : ds.lastUsedState with _ | s
  · have h1 : GetCurrentState ds = buildCurrentState ds := by
      unfold GetCurrentState
      rw [hls]
    rw [h1]
    unfold GetCurrentState buildCurrentState
    simp
  · by_cases hv : s.version = ds.currentVersion
    · have h1 : GetCurrentState ds = (s, ds) := by
        unfold GetCurrentState
        rw [hls]
        dsimp only
        rw [if_pos hv]
      rw [h1]
      exact h1
    · have h1 : GetCurrentState ds = buildCurrentState ds := by
        unfold GetCurrentState
        rw [hls]
        dsimp only
        rw [if_neg hv]
      rw [h1]
      unfold GetCurrentState buildCurrentState
      simp

theorem snapshot_cache_correct_witness :
    GetCurrentState (GetCurrentState exEmptySet).2 = GetCurrentState exEmptySet ∧
    ((GetCurrentState (PerformWriteUpdate (fun bs => bs) exEmptySet)).1.version =
        (PerformWriteUpdate (fun bs => bs) exEmptySet).currentVersion ∧
      (GetCurrentState (PerformWriteUpdate (fun bs => bs) exEmptySet)).1.buildId =
        exEmptySet.nextBuild ∧
      (GetCurrentState (PerformWriteUpdate (fun bs => bs) exEmptySet)).2.nextBuild =
        exEmptySet.nextBuild + 1) :=
  ⟨snapshot_cache_correct.1 exEmptySet,
    snapshot_cache_correct.2.2.1 (fun bs => bs) exEmptySet (fun s h => nomatch h)⟩

/-- C9: `UsedDescriptors` returns the empty mapping when the state has no
backing output buffer; with a buffer, a pair `(b, hits)` is in the result
exactly when `b` is a binding listed in the layout buffer and `hits` is
the nonempty list of element indices whose output slot at the binding's
layout offset equals the tag; hit lists are in ascending index order; and
the worked example (binding 0, 3 elements at offset 0, slots 0 and 2
stamped with tag 7) decodes to `{0 : [0, 2]}`. -/
theorem used_descriptors_correct :
    (∀ (l : Nat → BindingLayout) (data : Nat → Nat) (tag : Nat),
      UsedDescriptors false l data tag = []) ∧
    (∀ (l : Nat → BindingLayout) (data : Nat → Nat) (tag b : Nat) (hits : List Nat),
      ((b, hits) ∈ UsedDescriptors true l data tag ↔
        b < (l 0).count ∧
          hits = scanBinding data tag (l (b + 1)).state_start (l (b + 1)).count ∧
          hits ≠ [])) ∧
    (∀ (data : Nat → Nat) (tag start count : Nat),
      (scanBinding data tag start count).Pairwise (· < ·)) ∧
    UsedDescriptors true exUsedLayout exUsedData 7 = [(0, [0, 2])] := by
  refine ⟨?_, ?_, ?_, by decide⟩
  · intro l data tag
    unfold UsedDescriptors
    rw [if_pos rfl]
  · intro l data tag b hits
    unfold UsedDescriptors
    rw [if_neg (by simp)]
    rw [List.mem_filterMap]
    constructor
    · rintro ⟨x, hx, hfx⟩
      dsimp only at hfx
      by_cases he : (scanBinding data tag (l (x + 1)).state_start (l (x + 1)).count).isEmpty
      · rw [if_pos he] at hfx
        cases hfx
      · rw [if_neg he] at hfx
        have hxb : x = b ∧
            scanBinding data tag (l (x + 1)).state_start (l (x + 1)).count = hits := by
          simpa using hfx
        obtain ⟨rfl, hh⟩ := hxb
        refine ⟨List.mem_range.mp hx, hh.symm, ?_⟩
        intro hnil
        apply he
        rw [List.isEmpty_iff, hh, hnil]
    · rintro ⟨hb, hhits, hne⟩
      refine ⟨b, List.mem_range.mpr hb, ?_⟩
      dsimp only
      rw [if_neg ?_, ← hhits]
      intro h
      apply hne
      rw [hhits]
      exact List.isEmpty_iff.mp h
  · intro data tag start count
    unfold scanBinding
    exact List.Pairwise.filter _ (List.pairwise_lt_range count)

theorem used_descriptors_correct_witness :
    (0, [0, 2]) ∈ UsedDescriptors true exUsedLayout exUsedData 7 :=
  (used_descriptors_correct.2.1 exUsedLayout exUsedData 7 0 [0, 2]).mpr
    ⟨by decide, by decide, by decide⟩

/-- C6 counterexample: a plain-sampler descriptor (direct, and inside a
mutable descriptor) whose backing sampler object has been destroyed does
not produce a skip-sentinel record — the extraction dereferences the dead
sampler state (embedded as `none`), contradicting the claim at this
concrete input. -/
theorem sampler_skip_counterexample :
    getInDataSamplerDesc { samplerState := none } = none ∧
    getInDataMutableDesc exDeadSamplerMutable = none ∧
    getInDataSamplerDesc { samplerState := none } ≠
      some (mkDescriptorState2 .PlainSampler kDebugInputBindlessSkipId) ∧
    getInDataMutableDesc exDeadSamplerMutable ≠
      some (mkDescriptorState2 .PlainSampler kDebugInputBindlessSkipId) :=
  ⟨rfl, rfl, by decide, by decide⟩

/-- C6 (amended): a destroyed backing resource yields the skip-sentinel
identifier for general-buffer, texel-buffer, image and
acceleration-structure descriptors — both direct and inside a mutable
descriptor — and for the image of a combined image-sampler; the sampler
paths are the exception: a plain-sampler descriptor (direct or mutable)
dereferences its sampler state unconditionally, and a combined
image-sampler stores `0`, not the skip sentinel, for a missing sampler. -/
theorem dead_resource_skip :
    (∀ d : BufferDescriptor, d.bufferState = none →
      getInDataBufferDesc d =
        mkDescriptorState3 .GeneralBuffer kDebugInputBindlessSkipId kU32Max) ∧
    (∀ d : TexelDescriptor, d.bufferViewState = none →
      getInDataTexelDesc d =
        mkDescriptorState3 .TexelBuffer kDebugInputBindlessSkipId kU32Max) ∧
    (∀ d : ImageDescriptor, d.imageViewState = none →
      getInDataImageDesc d = mkDescriptorState2 .Image kDebugInputBindlessSkipId) ∧
    (∀ d : ImageSamplerDescriptor, d.imageViewState = none →
      (getInDataImageSamplerDesc d).id = kDebugInputBindlessSkipId) ∧
    (∀ d : AccelerationStructureDescriptor,
      d.accelKHRState = none → d.accelNVState = none →
      getInDataAccelDesc d =
        mkDescriptorState2 .AccelerationStructure kDebugInputBindlessSkipId) ∧
    (∀ d : MutableDescriptor, d.activeClass = .GeneralBuffer →
      d.sharedBufferState = none →
      getInDataMutableDesc d =
        some (mkDescriptorState3 .GeneralBuffer kDebugInputBindlessSkipId kU32Max)) ∧
    (∀ d : MutableDescriptor, d.activeClass = .TexelBuffer →
      d.sharedBufferViewState = none →
      getInDataMutableDesc d =
        some (mkDescriptorState3 .TexelBuffer kDebugInputBindlessSkipId kU32Max)) ∧
    (∀ d : MutableDescriptor, d.activeClass = .Image →
      d.sharedImageViewState = none →
      getInDataMutableDesc d =
        some (mkDescriptorState2 .Image kDebugInputBindlessSkipId)) ∧
    (∀ d : MutableDescriptor, d.activeClass = .AccelerationStructure →
      d.accelKHRState = none → d.accelNVState = none →
      getInDataMutableDesc d =
        some (mkDescriptorState2 .AccelerationStructure kDebugInputBindlessSkipId)) ∧
    (∀ d : SamplerDescriptor, d.samplerState = none →
      getInDataSamplerDesc d = none) ∧
    (∀ d : MutableDescriptor, d.activeClass = .PlainSampler →
      d.sharedSamplerState = none → getInDataMutableDesc d = none) := by
  refine ⟨?_, ?_, ?_, ?_, ?_, ?_, ?_, ?_, ?_, ?_, ?_⟩
  · intro d h1
    simp [getInDataBufferDesc, h1]
  · intro d h1
    simp [getInDataTexelDesc, h1]
  · intro d h1
    simp [getInDataImageDesc, h1, mkDescriptorState2]
  · intro d h1
    simp [getInDataImageSamplerDesc, h1, mkDescriptorState3]
  · intro d h1 h2
    simp [getInDataAccelDesc, h1, h2, mkDescriptorState2]
  · intro d h1 h2
    simp [getInDataMutableDesc, h1, h2]
  · intro d h1 h2
    simp [getInDataMutableDesc, h1, h2]
  · intro d h1 h2
    simp [getInDataMutableDesc, h1, h2, mkDescriptorState2]
  · intro d h1 h2 h3
    simp [getInDataMutableDesc, h1, h2, h3, mkDescriptorState2]
  · intro d h1
    simp [getInDataSamplerDesc, h1]
  · intro d h1 h2
    simp [getInDataMutableDesc, h1, h2]

theorem dead_resource_skip_witness :
    getInDataBufferDesc { bufferState := none, offset := 0, range := some 4 } =
      mkDescriptorState3 .GeneralBuffer kDebugInputBindlessSkipId kU32Max ∧
    getInDataMutableDesc exDeadSamplerMutable = none :=
  ⟨dead_resource_skip.1 { bufferState := none, offset := 0, range := some 4 } rfl,
    dead_resource_skip.2.2.2.2.2.2.2.2.2.2 exDeadSamplerMutable rfl rfl⟩

/-- C7 counterexample: for the same live 100-byte buffer (identifier 7), a
direct general-buffer descriptor bound with an explicit 50-byte range
stores extent 50 (the effective range), while a mutable descriptor with
active class general-buffer stores extent 100 (the full create-info
size) — the records differ, contradicting the claim at this concrete
input. -/
theorem mutable_extent_counterexample :
    getInDataBufferDesc exDirectGB7 = mkDescriptorState3 .GeneralBuffer 7 50 ∧
    getInDataMutableDesc exMutableGB7 =
      some (mkDescriptorState3 .GeneralBuffer 7 100) ∧
    getInDataMutableDesc exMutableGB7 ≠ some (getInDataBufferDesc exDirectGB7) ∧
    (getInDataBufferDesc exDirectGB7).extent ≠
      (mkDescriptorState3 .GeneralBuffer 7 100).extent :=
  ⟨by decide, by decide, by decide, by decide⟩

/-- C7 (amended): a mutable descriptor's record equals the direct
per-class extraction on the same underlying resource(s) for the
texel-buffer, image, plain-sampler, combined image-sampler and
acceleration-structure classes; for the general-buffer class the mutable
path stores the buffer's full create-info size while the direct path
stores the descriptor's effective bound range, so the records coincide
exactly when those two extents agree (and always when the buffer has been
destroyed). -/
theorem mutable_matches_direct :
    (∀ (d : MutableDescriptor) (t : TexelDescriptor), d.activeClass = .TexelBuffer →
      d.sharedBufferViewState = t.bufferViewState →
      getInDataMutableDesc d = some (getInDataTexelDesc t)) ∧
    (∀ (d : MutableDescriptor) (t : ImageDescriptor), d.activeClass = .Image →
      d.sharedImageViewState = t.imageViewState →
      getInDataMutableDesc d = some (getInDataImageDesc t)) ∧
    (∀ (d : MutableDescriptor) (t : SamplerDescriptor), d.activeClass = .PlainSampler →
      d.sharedSamplerState = t.samplerState →
      getInDataMutableDesc d = getInDataSamplerDesc t) ∧
    (∀ (d : MutableDescriptor) (t : ImageSamplerDescriptor),
      d.activeClass = .ImageSampler →
      d.sharedImageViewState = t.imageViewState →
      d.sharedSamplerState = t.samplerState →
      getInDataMutableDesc d = some (getInDataImageSamplerDesc t)) ∧
    (∀ (d : MutableDescriptor) (t : AccelerationStructureDescriptor),
      d.activeClass = .AccelerationStructure → d.isKHR = t.isKHR →
      d.accelKHRState = t.accelKHRState → d.accelNVState = t.accelNVState →
      getInDataMutableDesc d = some (getInDataAccelDesc t)) ∧
    (∀ (d : MutableDescriptor) (bd : BufferDescriptor) (b : BufferResource),
      d.activeClass = .GeneralBuffer → d.sharedBufferState = some b →
      bd.bufferState = some b →
      getInDataMutableDesc d =
          some (mkDescriptorState3 .GeneralBuffer b.id (b.createInfoSize % 2 ^ 32)) ∧
        getInDataBufferDesc bd =
          mkDescriptorState3 .GeneralBuffer b.id (GetEffectiveRange bd % 2 ^ 32) ∧
        (GetEffectiveRange bd % 2 ^ 32 = b.createInfoSize % 2 ^ 32 →
          getInDataMutableDesc d = some (getInDataBufferDesc bd))) ∧
    (∀ (d : MutableDescriptor) (bd : BufferDescriptor), d.activeClass = .GeneralBuffer →
      d.sharedBufferState = none → bd.bufferState = none →
      getInDataMutableDesc d = some (getInDataBufferDesc bd)) := by
  refine ⟨?_, ?_, ?_, ?_, ?_, ?_, ?_⟩
  · intro d t h1 h2
    rcases ht : t.bufferViewState with _ | v <;>
      simp [getInDataMutableDesc, getInDataTexelDesc, h1, h2, ht]
  · intro d t h1 h2
    simp [getInDataMutableDesc, getInDataImageDesc, h1, h2]
  · intro d t h1 h2
    rcases ht : t.samplerState with _ | s <;>
      simp [getInDataMutableDesc, getInDataSamplerDesc, h1, h2, ht]
  · intro d t h1 h2 h3
    simp [getInDataMutableDesc, getInDataImageSamplerDesc, h1, h2, h3]
  · intro d t h1 h2 h3 h4
    simp [getInDataMutableDesc, getInDataAccelDesc, h1, h2, h3, h4]
  · intro d bd b h1 h2 h3
    refine ⟨by simp [getInDataMutableDesc, h1, h2], by simp [getInDataBufferDesc, h3], ?_⟩
    intro hx
    have hx' : GetEffectiveRange bd % 4294967296 = b.createInfoSize % 4294967296 := by
      norm_num at hx
      exact hx
    simp [getInDataMutableDesc, getInDataBufferDesc, h1, h2, h3, hx']
  · intro d bd h1 h2 h3
    simp [getInDataMutableDesc, getInDataBufferDesc, h1, h2, h3]

theorem mutable_matches_direct_witness :
    getInDataMutableDesc
        { activeClass := .TexelBuffer
          sharedBufferState := none
          sharedBufferViewState := some ⟨9, 64, 4⟩
          sharedImageViewState := none
          sharedSamplerState := none
          isKHR := false
          accelKHRState := none
          accelNVState := none } =
      some (getInDataTexelDesc { bufferViewState := some ⟨9, 64, 4⟩ }) :=
  mutable_matches_direct.1 _ _ rfl rfl

/-- C8: during snapshot construction, every element that was never updated
yields the default-constructed record, whose primary identifier is the
reserved skip-sentinel and whose extent is the reserved max-unsigned
sentinel, for every non-inline binding and element index below the
declared count; the single record of an inline-uniform-block binding also
carries the skip-sentinel identifier and max-unsigned extent. -/
theorem unbound_element_default :
    (∀ (b : SetBinding) (di : Nat), di < b.count → b.updated di = false →
      b.typeIsInlineUniformBlock = false →
      (fillBindingInData b)[di]? = some (some defaultDescriptorState)) ∧
    (∀ b : SetBinding, b.descriptors = .inlineUniform →
      ∀ r ∈ fillBindingInData b,
        r = some (mkDescriptorState3 .InlineUniform kDebugInputBindlessSkipId kU32Max)) ∧
    defaultDescriptorState.id = kDebugInputBindlessSkipId ∧
    defaultDescriptorState.extent = kU32Max ∧
    (mkDescriptorState3 .InlineUniform kDebugInputBindlessSkipId kU32Max).id =
      kDebugInputBindlessSkipId ∧
    (mkDescriptorState3 .InlineUniform kDebugInputBindlessSkipId kU32Max).extent =
      kU32Max := by
  refine ⟨?_, ?_, rfl, rfl, rfl, rfl⟩
  · intro b di hdi hupd hni
    have key : ∀ f : Nat → Option DescriptorState,
        (fillRange b.count b.updated f)[di]? = some (some defaultDescriptorState) := by
      intro f
      unfold fillRange
      rw [List.getElem?_map, List.getElem?_range hdi]
      simp [hupd]
    rcases hd : b.descriptors with ds | ds | ds | ds | ds | ds | ds | _ <;>
        simp only [fillBindingInData, hd] <;>
      first
      | exact key _
      | simp [SetBinding.typeIsInlineUniformBlock, descriptorClassOf, hd] at hni
  · intro b hb r hr
    simp only [fillBindingInData, hb] at hr
    simpa using hr

theorem unbound_element_default_witness :
    (fillBindingInData (exLayoutBinding 0 3))[1]? = some (some defaultDescriptorState) :=
  unbound_element_default.1 (exLayoutBinding 0 3) 1 (by decide) rfl (by decide)

end GpuAV
